import Mathlib

/-! # Verification of samplomatic against its specification

This file shallowly embeds the parts of the samplomatic source that the
verified claims are about, and proves (or refutes) each claim over that
embedding.  Every definition is translated from a named function of the
source tree; definitions that model code outside the provided sources are
marked `Modelled from the spec:` in their doc comment.

Overview of the embedded components:

* the `BalancedUniformPauli` distribution (`distributions/balanced_uniform_pauli.py`);
* single-qubit Clifford tableaus and `apply_clifford`, `invert`, `convert_to`
  of `virtual_registers/c1_register.py`;
* `C1PastCliffordNode.evaluate` (`samplex/nodes/c1_past_clifford_node.py`);
* the `Samplex.sample` entry guards (`samplex/samplex.py`);
* the samplex JSON serialization layer (`samplex/samplex_serialization.py`,
  `samplex/nodes/twirl_sampling_node.py`);
* the box builder dispatch (`builders/get_builder.py`).
-/

set_option autoImplicit false
set_option maxRecDepth 8192

namespace Samplomatic

/-! # Part 1: definitions (shallow embedding of the source) -/

/-- The error taxonomy of the package (`exceptions.py` is not under the provided
sources; the kinds are modelled from the spec error-taxonomy section, as distinct
kinds).  `untypedRuntimeError` models the Python `RuntimeError` produced by a bare
`raise` statement executed with no active exception. -/
inductive ErrKind where
  | buildError
  | samplexBuildError
  | samplexConstructionError
  | samplexRuntimeError
  | samplexInputError
  | serializationError
  | virtualGateError
  | notImplementedError
  | untypedRuntimeError
  deriving DecidableEq, Repr

/-! ## BalancedUniformPauli (`distributions/balanced_uniform_pauli.py`) -/

/-- The `_MULTIPLIERS` array: the Pauli indices of I, X, Z, Y in that fixed order
(encoding `I=0, Z=1, X=2, Y=3`). -/
def multipliers : List Nat := [0, 2, 1, 3]

/-- The number of base draws made by `BalancedUniformPauli.sample`:
`size // 4 + bool(size % 4)`. -/
def numBaseSamples (size : Nat) : Nat :=
  size / 4 + (if size % 4 = 0 then 0 else 1)

/-- One subsystem row of `BalancedUniformPauli.sample`.  `base` is that row of the
uniform draw `rng.integers(0, 4, (num_subsystems, size // 4 + bool(size % 4), 1))`.
Each base draw is replicated with the four multipliers; results are reduced mod 4
(done by the `PauliRegister` constructor, modelled from the spec data-model table
and the comment in the source, since `pauli_register.py` is not under the provided
sources), then the row is truncated to `size`. -/
def balancedSampleRow (base : List Nat) (size : Nat) : List Nat :=
  ((base.map (fun b => multipliers.map (fun m => (m + b) % 4))).flatten).take size

/-- Embeds `BalancedUniformPauli.sample` at the register level: one row per subsystem. -/
def balancedUniformPauliSample (size : Nat) (base : List (List Nat)) : List (List Nat) :=
  base.map (fun row => balancedSampleRow row size)

/-- The four replications of a single base draw `b`. -/
def balancedBlock (b : Nat) : List Nat :=
  multipliers.map (fun m => (m + b) % 4)

/-! ## Single-qubit Clifford tableaus (`virtual_registers/c1_register.py`) -/

/-- One row `(x | z | phase)` of a single-qubit tableau. -/
structure TabRow where
  x : Bool
  z : Bool
  s : Bool
  deriving DecidableEq, Repr

/-- A single-qubit tableau of shape `GATE_SHAPE = (2, 3)` as stored by
`C1Register`: row 0 is the image of X, row 1 the image of Z, with the
block-column structure `x | z | phase`. -/
structure Tableau1 where
  r0 : TabRow
  r1 : TabRow
  deriving DecidableEq, Repr

/-- The identity tableau produced by `C1Register.identity`:
`arr[:, :, 0, 0] = arr[:, :, 1, 1] = 1` and all other entries zero. -/
def idTableau1 : Tableau1 :=
  ⟨⟨true, false, false⟩, ⟨false, true, false⟩⟩

/-- The `_PHASE_LOOKUP` table of `c1_register.py`, index order
`(current_x, current_z, running_x_count, running_z_count)`. -/
def phaseLookup : Bool → Bool → Bool → Bool → Int
  | false, false, _, _ => 0
  | false, true, false, _ => 0
  | false, true, true, false => -1
  | false, true, true, true => 1
  | true, false, false, false => 0
  | true, false, false, true => 1
  | true, false, true, false => 0
  | true, false, true, true => -1
  | true, true, false, false => 0
  | true, true, false, true => -1
  | true, true, true, false => 1
  | true, true, true, true => 0

/-- The body of the row loop of `apply_clifford` (`c1_register.py`) at
`num_qubits = 1`, acting on one row `(x | z | phase)` of the second tableau.
When both the x and the z bit of the row are set, the boolean-mask selection
picks both rows of the Clifford tableau, contributing one `-i` factor from the
XZ substitution plus one `_PHASE_LOOKUP` pair term; otherwise fewer than two
rows are selected and no pair term arises. -/
def applyCliffordRow (c : Tableau1) (r : TabRow) : TabRow :=
  let iFactors : Int :=
    if r.x && r.z then 1 + phaseLookup c.r1.x c.r1.z c.r0.x c.r0.z else 0
  let phaseBit : Bool := decide (iFactors.emod 4 / 2 = 1)
  { x := xor (r.x && c.r0.x) (r.z && c.r1.x)
    z := xor (r.x && c.r0.z) (r.z && c.r1.z)
    s := xor (xor (r.x && c.r0.s) (r.z && c.r1.s)) (xor r.s phaseBit) }

/-- Embeds `apply_clifford(clifford_tableau, tableau)` of `c1_register.py` at one
qubit: the action of the first tableau on the second; when the second happens
to represent a Clifford this is Clifford multiplication.  `C1Register.multiply`
applies it elementwise with the element of `self` as first argument. -/
def applyClifford1 (c t : Tableau1) : Tableau1 :=
  ⟨applyCliffordRow c t.r0, applyCliffordRow c t.r1⟩

/-- A single-qubit Pauli operator with explicit phase: `i^phase · X^x · Z^z`. -/
structure PauliOp where
  phase : ZMod 4
  x : Bool
  z : Bool
  deriving DecidableEq

def PauliOp.one : PauliOp := ⟨0, false, false⟩

/-- Product of phase-explicit Pauli operators, using
`Z^a · X^b = (-1)^{a b} X^b Z^a`. -/
def PauliOp.mul (a b : PauliOp) : PauliOp :=
  ⟨a.phase + b.phase + (if a.z && b.x then 2 else 0), xor a.x b.x, xor a.z b.z⟩

/-- The operator denoted by a tableau row: `(-1)^s · (-i)^{x z} X^x Z^z`. -/
def rowOp (r : TabRow) : PauliOp :=
  ⟨(if r.s then 2 else 0) + (if r.x && r.z then 3 else 0), r.x, r.z⟩

/-- The tableau row denoting a phase-explicit Pauli operator (meaningful when
the phase is `±1` relative to the `(-i)^{x z} X^x Z^z` convention, which is the
case for rows of valid Clifford tableaus). -/
def opRow (p : PauliOp) : TabRow :=
  ⟨p.x, p.z, decide (p.phase = (if p.x && p.z then 3 else 0) + 2)⟩

/-- Conjugation action of the Clifford with tableau `c` on a phase-explicit
Pauli operator: X and Z map to the operators of the two rows of `c`, and the
action is a homomorphism of the Pauli group. -/
def conjOp (c : Tableau1) (p : PauliOp) : PauliOp :=
  let im := PauliOp.mul (if p.x then rowOp c.r0 else PauliOp.one)
    (if p.z then rowOp c.r1 else PauliOp.one)
  ⟨p.phase + im.phase, im.x, im.z⟩

/-- Ground-truth composition of single-qubit Clifford tableaus, from the
textbook semantics of tableaus: each row of `d` is mapped through the
conjugation action of `c`, yielding the tableau of `c` after `d`. -/
def composeGT (c d : Tableau1) : Tableau1 :=
  ⟨opRow (conjOp c (rowOp d.r0)), opRow (conjOp c (rowOp d.r1))⟩

def allRows : List TabRow :=
  [false, true].flatMap fun x =>
    [false, true].flatMap fun z => [false, true].map fun s => ⟨x, z, s⟩

/-- All 64 bit patterns of a 2×3 tableau. -/
def allTableaus : List Tableau1 :=
  allRows.flatMap fun a => allRows.map fun b => ⟨a, b⟩

/-- Whether a 2×3 bit pattern is the tableau of a single-qubit Clifford: the
symplectic block must be invertible mod 2 (the images of X and Z anticommute).
The 24 valid patterns are exactly the elements of C1. -/
def validTableau1 (t : Tableau1) : Bool :=
  xor (t.r0.x && t.r1.z) (t.r0.z && t.r1.x)

/-- Embeds `C1Register.invert`, which runs `Clifford(tableau).adjoint().tableau` through
qiskit (an external dependency); qiskit documents `adjoint` of a Clifford as
its inverse.  Modelled as the unique valid tableau whose ground-truth
composition with `c` on both sides is the identity. -/
def adjointTableau1 (c : Tableau1) : Tableau1 :=
  (allTableaus.filter fun d =>
    validTableau1 d && (composeGT c d == idTableau1) && (composeGT d c == idTableau1)).headD
    idTableau1

/-- Embeds `C1Register.multiply` at equal shapes: elementwise
`apply_clifford(self_element, other_element)`. -/
def c1Multiply (a b : List (List Tableau1)) : List (List Tableau1) :=
  List.zipWith (fun ra rb => List.zipWith applyClifford1 ra rb) a b

/-- Embeds `C1Register.invert`: elementwise adjoint. -/
def c1Invert (r : List (List Tableau1)) : List (List Tableau1) :=
  r.map (List.map adjointTableau1)

/-- Embeds `C1Register.identity(num_subsystems, num_samples)`. -/
def c1Identity (n m : Nat) : List (List Tableau1) :=
  List.replicate n (List.replicate m idTableau1)

/-! ## `C1Register.convert_to` -/

/-- The virtual register kinds (`virtual_registers/virtual_type.py`). -/
inductive VirtualType where
  | pauli
  | c1
  | localC1
  | u2
  | z2
  deriving DecidableEq, Repr

/-- Embeds `C1Register.convert_to`.  The `U2` branch is verbatim from the source: it
raises `NotImplementedError` ("Converting from C1 to U2 virtual registers is
not yet supported").  The `C1` branch is `GroupRegister.convert_to` returning
the register itself when the target kind matches (exercised by
`test_convert_to_c1`).  Remaining kinds lie outside
`CONVERTABLE_TYPES = {C1, U2}` and are rejected (Modelled from the spec:
`group_register.py` is not under the provided sources; every kind advertises
the set of kinds it can be converted to). -/
def c1ConvertTo (r : List (List Tableau1)) : VirtualType → Except ErrKind (List (List Tableau1))
  | VirtualType.u2 => .error .notImplementedError
  | VirtualType.c1 => .ok r
  | _ => .error .virtualGateError

/-! ## C1PastCliffordNode (`samplex/nodes/c1_past_clifford_node.py`) -/

/-- A `C1PastCliffordNode`: the listed subsystem pairs (`self._subsystem_idxs`)
and the entangler's 24×24×2 lookup table
(`C1_PAST_CLIFFORD_LOOKUP_TABLES[op_name]`), whose entries are either a
non-negative result pair or the sentinel `(-1, -1)` when the conjugation does
not remain local.  The table is precomputed through qiskit at import time; it
enters the embedding as an uninterpreted parameter of the node, exactly as
`self._lookup_table` is carried by the node object. -/
structure C1PastCliffordNode where
  pairs : List (Nat × Nat)
  table : Nat → Nat → Int × Int

/-- A C1 register as manipulated by samplex evaluation nodes: one row of C1
indices per subsystem, one column per randomization (the uint8 payload
exercised by `test_c1_past_clifford.py`). -/
def regVal (reg : List (List Nat)) (i k : Nat) : Nat :=
  (reg.getD i []).getD k 0

/-- The lookups `self._lookup_table[c1_in[:, 0], c1_in[:, 1]]` for one listed
pair, over all randomizations, computed from the register contents before any
write. -/
def pairLookups (node : C1PastCliffordNode) (reg : List (List Nat)) (p : Nat × Nat) :
    List (Int × Int) :=
  (List.zip (reg.getD p.1 []) (reg.getD p.2 [])).map fun q => node.table q.1 q.2

/-- Embeds `np.any(c1_out < 0)`: whether any lookup component is negative. -/
def hasSentinel (node : C1PastCliffordNode) (reg : List (List Nat)) : Bool :=
  node.pairs.any fun p =>
    (pairLookups node reg p).any fun q => decide (q.1 < 0) || decide (q.2 < 0)

/-- The write-back of one pair of the assignment
`reg.virtual_gates[subsys] = np.transpose(c1_out, (0, 2, 1))`: row `p.1`
receives the first components, row `p.2` the second components. -/
def writePairResult (reg : List (List Nat)) (p : Nat × Nat) (outs : List (Int × Int)) :
    List (List Nat) :=
  (reg.set p.1 (outs.map fun q => q.1.toNat)).set p.2 (outs.map fun q => q.2.toNat)

/-- Embeds `C1PastCliffordNode.evaluate`: all lookups are computed from the incoming
register, then checked for sentinels; only if none is negative is the register
written (rows listed several times resolve to the last listed pair, as in the
numpy fancy-indexed assignment).  A sentinel raises `SamplexRuntimeError`. -/
def c1PastCliffordEvaluate (node : C1PastCliffordNode) (reg : List (List Nat)) :
    List (List Nat) × Option ErrKind :=
  let outs := node.pairs.map fun p => (p, pairLookups node reg p)
  if hasSentinel node reg then (reg, some ErrKind.samplexRuntimeError)
  else (outs.foldl (fun acc po => writePairResult acc po.1 po.2) reg, none)

/-! ## Concrete lookup tables used by witnesses -/

/-- A concrete sentinel-free lookup table used by witnesses. -/
def plainTable : Nat → Nat → Int × Int := fun a b => (Int.ofNat a, Int.ofNat b)

/-- A lookup table that is sentinel everywhere, used by the C10 witness. -/
def sentinelTable : Nat → Nat → Int × Int := fun _ _ => (-1, -1)

/-! ## Samplex.sample entry guards (`samplex/samplex.py`) -/

/-- An input specification of the tensor interface: name and optionality
(shape, dtype and description are irrelevant to the embedded guards). -/
structure InputSpec where
  name : String
  optional : Bool
  deriving DecidableEq, Repr

/-- The samplex state relevant to `sample`: the `_finalized` flag (set by
`finalize`, cleared by `add_node` and `add_edge`) and the declared input
specifications. -/
structure SamplexState where
  finalized : Bool
  inputSpecs : List InputSpec
  deriving DecidableEq, Repr

/-- An input bundle: the names that have been given values. -/
structure InputBundle where
  bound : List String
  deriving DecidableEq, Repr

/-- Modelled from the spec: a bundle is fully bound when every non-optional
specification has a value (`TensorInterface.fully_bound`; `tensor_interface.py`
is not under the provided sources). -/
def fullyBound (specs : List InputSpec) (inp : InputBundle) : Bool :=
  specs.all fun s => s.optional || inp.bound.contains s.name

/-- The three execution phases of `Samplex.sample`. -/
inductive SamplePhase where
  | sampling
  | evaluation
  | collection
  deriving DecidableEq, Repr

/-- The entry guards and phase schedule of `Samplex.sample`: if the samplex is
not finalized, `SamplexRuntimeError` is raised before any work (the source
comments that it deliberately raises instead of calling `finalize()`); if the
input is not fully bound, `SamplexRuntimeError` is raised likewise.  Only then
are the sampling, evaluation and collection phases run.  The first component
is the samplex state after the call: `sample` never writes `_finalized`. -/
def sampleRun (s : SamplexState) (inp : InputBundle) :
    SamplexState × Except ErrKind (List SamplePhase) :=
  if s.finalized = false then
    (s, .error .samplexRuntimeError)
  else if fullyBound s.inputSpecs inp = false then
    (s, .error .samplexRuntimeError)
  else
    (s, .ok [SamplePhase.sampling, SamplePhase.evaluation, SamplePhase.collection])

/-! ## Samplex serialization (`samplex/samplex_serialization.py`) -/

/-- The constant `SSV`: the most recent samplex serialization version. -/
def SSV : Nat := 1

/-- The constant `SSV_MIN_SUPPORTED`: the minimum supported samplex serialization version. -/
def SSV_MIN_SUPPORTED : Nat := 1

/-- The version dispatch of `_samplex_from_graph` (the tail of
`samplex_from_json`): the `"ssv"` graph attribute is read, and only the value
`"1"` selects a header deserialization; every other value reaches a bare
`raise` statement with no active exception, which surfaces in Python as
`RuntimeError("No active exception to re-raise")`. -/
def samplexFromGraphDispatch (ssvAttr : Option String) : Except ErrKind Unit :=
  if ssvAttr = some "1" then .ok () else .error .untypedRuntimeError

/-- The distributions a `TwirlSamplingNode` can carry (`distributions/`). -/
inductive SamplingDistribution where
  | uniformPauli (numSubsystems : Nat)
  | balancedUniformPauli (numSubsystems : Nat)
  | haarU2 (numSubsystems : Nat)
  | uniformC1 (numSubsystems : Nat)
  | uniformLocalC1 (numSubsystems : Nat) (gate : String)
  deriving DecidableEq, Repr

def SamplingDistribution.numSubsystems : SamplingDistribution → Nat
  | .uniformPauli n => n
  | .balancedUniformPauli n => n
  | .haarU2 n => n
  | .uniformC1 n => n
  | .uniformLocalC1 n _ => n

/-- A `TwirlSamplingNode`: the two register names and the distribution. -/
structure TwirlSamplingNode where
  lhsRegisterName : String
  rhsRegisterName : String
  distribution : SamplingDistribution
  deriving DecidableEq, Repr

/-- The field dictionary produced by `TwirlSamplingNode._to_json_dict`, with
the `distribution` entry split into its two `json.dumps` fields. -/
structure TwirlNodeJson where
  nodeType : String
  lhsRegisterName : String
  rhsRegisterName : String
  distType : String
  distNumSubsystems : Nat
  deriving DecidableEq, Repr

/-- Embeds `TwirlSamplingNode._to_json_dict` (`samplex/nodes/twirl_sampling_node.py`):
the distribution type tag is `"haar_u2"` when the distribution is `HaarU2` and
`"pauli_uniform"` for every other distribution. -/
def twirlSamplingToJsonDict (node : TwirlSamplingNode) : TwirlNodeJson :=
  { nodeType := "9"
    lhsRegisterName := node.lhsRegisterName
    rhsRegisterName := node.rhsRegisterName
    distType :=
      match node.distribution with
      | .haarU2 _ => "haar_u2"
      | _ => "pauli_uniform"
    distNumSubsystems := node.distribution.numSubsystems }

/-- A JSON-ish value, enough to express the passthrough-parameter
serialization. -/
inductive Json where
  | jnum (n : Int)
  | jstr (s : String)
  | jarr (xs : List Json)

/-- Embeds `_serialize_passthrough_params`: `None` becomes the string `"None"`, and a
pair `data` becomes the JSON array `[data[0], [data[1]]]` — note the second
component is wrapped in an extra singleton array by the source. -/
def serializePassthroughParams : Option (Json × Json) → Json
  | none => .jstr "None"
  | some (a, b) => .jarr [a, .jarr [b]]

/-- Embeds `_deserialize_passthrough_params`: the string `"None"` becomes `None`,
and a parsed two-element array becomes the tuple of its elements (the outer
`Option` models deserializer failure on malformed data). -/
def deserializePassthroughParams : Json → Option (Option (Json × Json))
  | .jstr s => if s = "None" then some none else none
  | .jarr [a, b] => some (some (a, b))
  | _ => none

/-! ## Box builder dispatch (`builders/get_builder.py`) -/

/-- Embeds `DressingMode` (`annotations/dressing_mode.py`). -/
inductive DressingMode where
  | left
  | right
  deriving DecidableEq, Repr

/-- The synthesizers selectable through `get_synth` (`synths/`), one per
decomposition mode; `get_synth` is modelled as the identity on this
enumeration. -/
inductive SynthMode where
  | rzsx
  | rzrx
  | corpse
  deriving DecidableEq, Repr

/-- The box directives recognized by `SUPPORTED_ANNOTATIONS`, with the fields
their parsers read (`Twirl`, `ChangeBasis`, `InjectLocalClifford`,
`InjectNoise`).  The noise model and site fields of `InjectNoise` are not read
by `get_builder` and are omitted. -/
inductive Annot where
  | twirl (group : VirtualType) (dressing : DressingMode) (decomposition : SynthMode)
  | changeBasis (mode : String) (ref : String) (dressing : DressingMode)
      (decomposition : SynthMode)
  | injectLocalClifford (ref : String) (dressing : DressingMode)
      (decomposition : SynthMode)
  | injectNoise (ref : String) (modifierRef : String)
  deriving DecidableEq, Repr

/-- The Python type of a directive, used by the duplicate check. -/
def Annot.tag : Annot → Nat
  | .twirl .. => 0
  | .changeBasis .. => 1
  | .injectLocalClifford .. => 2
  | .injectNoise .. => 3

/-- The `CollectionSpec` fields read or written by the parsers. -/
structure CollectionSpec where
  synth : Option SynthMode
  dressing : Option DressingMode
  deriving DecidableEq, Repr

/-- The `EmissionSpec` fields read or written by `get_builder` and the parsers
(`builders/specs.py` is not under the provided sources; that every field starts
out unset is modelled from the parsers' own checks and the spec).  String refs
use `Option String`; Python truthiness of `basis_ref` coincides with `isSome`
because the parsers only ever store non-empty prefixed strings there. -/
structure EmissionSpec where
  basisChange : Option String
  basisRef : Option String
  noiseRef : Option String
  noiseModifierRef : Option String
  twirlRegisterType : Option VirtualType
  dressing : Option DressingMode
  twirlGate : Option String
  gateDependentTwirlQubits : List Nat
  fallbackTwirlQubits : List Nat
  qubits : List Nat
  deriving DecidableEq, Repr

def initCollectionSpec : CollectionSpec := ⟨none, none⟩

def initEmissionSpec (qubits : List Nat) : EmissionSpec :=
  ⟨none, none, none, none, none, none, none, [], [], qubits⟩

/-- Embeds `TWIRLING_GROUPS` (`annotations/virtual_type.py`). -/
def TWIRLING_GROUPS : List VirtualType := [VirtualType.pauli, VirtualType.localC1]

/-- The repeated synth-compatibility block of the parsers: an already chosen
synthesizer must agree, otherwise `BuildError`. -/
def applySynth (synth : SynthMode) (c : CollectionSpec) : Except ErrKind CollectionSpec :=
  match c.synth with
  | some cur => if synth = cur then .ok c else .error .buildError
  | none => .ok { c with synth := some synth }

/-- The repeated dressing-compatibility block of the parsers: an already chosen
dressing must agree, otherwise `BuildError`; when unset it is stored on both
specs. -/
def applyDressing (d : DressingMode) (c : CollectionSpec) (e : EmissionSpec) :
    Except ErrKind (CollectionSpec × EmissionSpec) :=
  match c.dressing with
  | some cur => if d = cur then .ok (c, e) else .error .buildError
  | none => .ok ({ c with dressing := some d }, { e with dressing := some d })

/-- Embeds `twirl_parser`. -/
def twirlParser (group : VirtualType) (dressing : DressingMode)
    (decomposition : SynthMode) (c : CollectionSpec) (e : EmissionSpec) :
    Except ErrKind (CollectionSpec × EmissionSpec) :=
  if group ∉ TWIRLING_GROUPS then .error .buildError
  else
    let e2 := { e with twirlRegisterType := some group }
    match applySynth decomposition c with
    | .error err => .error err
    | .ok c2 => applyDressing dressing c2 e2

/-- Embeds `change_basis_parser`. -/
def changeBasisParser (mode ref : String) (dressing : DressingMode)
    (decomposition : SynthMode) (c : CollectionSpec) (e : EmissionSpec) :
    Except ErrKind (CollectionSpec × EmissionSpec) :=
  if e.basisRef.isSome then .error .buildError
  else
    let e2 := { e with basisChange := some ("pauli_" ++ mode),
                       basisRef := some ("basis_changes." ++ ref) }
    match applySynth decomposition c with
    | .error err => .error err
    | .ok c2 => applyDressing dressing c2 e2

/-- Embeds `inject_local_clifford_parser`. -/
def injectLocalCliffordParser (ref : String) (dressing : DressingMode)
    (decomposition : SynthMode) (c : CollectionSpec) (e : EmissionSpec) :
    Except ErrKind (CollectionSpec × EmissionSpec) :=
  if e.basisRef.isSome then .error .buildError
  else
    let e2 := { e with basisChange := some "local_clifford",
                       basisRef := some ("local_cliffords." ++ ref) }
    match applySynth decomposition c with
    | .error err => .error err
    | .ok c2 => applyDressing dressing c2 e2

/-- Embeds `inject_noise_parser`: rejects a second noise annotation (`is not None`),
then records the refs. -/
def injectNoiseParser (ref modifierRef : String) (c : CollectionSpec)
    (e : EmissionSpec) : Except ErrKind (CollectionSpec × EmissionSpec) :=
  if e.noiseRef.isSome then .error .buildError
  else .ok (c, { e with noiseRef := some ref, noiseModifierRef := some modifierRef })

/-- Dispatch through `SUPPORTED_ANNOTATIONS`. -/
def parseAnnot : Annot → CollectionSpec → EmissionSpec →
    Except ErrKind (CollectionSpec × EmissionSpec)
  | .twirl g d dec, c, e => twirlParser g d dec c e
  | .changeBasis m r d dec, c, e => changeBasisParser m r d dec c e
  | .injectLocalClifford r d dec, c, e => injectLocalCliffordParser r d dec c e
  | .injectNoise r m, c, e => injectNoiseParser r m c e

/-- The annotation loop of `get_builder`: reject a duplicate directive type,
then run its parser. -/
def parseLoop : List Annot → List Nat → CollectionSpec → EmissionSpec →
    Except ErrKind (CollectionSpec × EmissionSpec)
  | [], _, c, e => .ok (c, e)
  | a :: rest, seen, c, e =>
    if a.tag ∈ seen then .error .buildError
    else
      match parseAnnot a c e with
      | .error err => .error err
      | .ok (c2, e2) => parseLoop rest (a.tag :: seen) c2 e2

/-- One instruction of a box body: a standard-gate name and its qubit
arguments. -/
structure BodyOp where
  name : String
  qargs : List Nat
  deriving DecidableEq, Repr

/-- The 2Q instructions the classification loop inspects
(`node.is_standard_gate() and node.op.num_qubits == 2`). -/
def twoQOps (body : List BodyOp) : List BodyOp :=
  body.filter fun op => op.qargs.length == 2

def BodyOp.pair (op : BodyOp) : Nat × Nat := (op.qargs.getD 0 0, op.qargs.getD 1 0)

/-- Whether two qubit pairs denote the same two-qubit subsystem
(`pair in seen_pairs`). -/
def samePair (a b : Nat × Nat) : Bool :=
  (a == b) || (a == (b.2, b.1))

/-- Whether two qubit pairs overlap; `QubitPartition.add` rejects such pairs
(per its use in `_classify_gate_dependent_twirl` and the tests; `partition.py`
is not under the provided sources, and every rejection raises `BuildError`). -/
def pairsOverlap (a b : Nat × Nat) : Bool :=
  (a.1 == b.1) || (a.1 == b.2) || (a.2 == b.1) || (a.2 == b.2)

/-- One iteration of the classification loop of
`_classify_gate_dependent_twirl`: duplicate pairs and overlapping pairs raise
`BuildError`; otherwise the pair is recorded and the gate name added to the
set. -/
def classifyStep (st : List (Nat × Nat) × List String) (op : BodyOp) :
    Except ErrKind (List (Nat × Nat) × List String) :=
  if op.qargs.length == 2 then
    if st.1.any fun q => samePair q op.pair then .error .buildError
    else if st.1.any fun q => pairsOverlap q op.pair then .error .buildError
    else .ok (st.1 ++ [op.pair], if op.name ∈ st.2 then st.2 else st.2 ++ [op.name])
  else .ok st

def classifyFold : List BodyOp → (List (Nat × Nat) × List String) →
    Except ErrKind (List (Nat × Nat) × List String)
  | [], st => .ok st
  | op :: rest, st =>
    match classifyStep st op with
    | .error err => .error err
    | .ok st2 => classifyFold rest st2

/-- Embeds `_classify_gate_dependent_twirl`: walk the body, then either demote the
twirl kind to Pauli (no 2Q gates), reject multiple distinct 2Q gate types with
`BuildError`, or record the twirl gate and the entangling/fallback qubit
split. -/
def classifyGateDependentTwirl (body : List BodyOp) (e : EmissionSpec) :
    Except ErrKind EmissionSpec :=
  match classifyFold body ([], []) with
  | .error err => .error err
  | .ok (seenPairs, gateNames) =>
    if gateNames.isEmpty then .ok { e with twirlRegisterType := some VirtualType.pauli }
    else if 1 < gateNames.length then .error .buildError
    else
      let gateQubits := (seenPairs.flatMap fun p => [p.1, p.2]).dedup
      .ok { e with twirlGate := some (gateNames.headD ""),
                   gateDependentTwirlQubits := gateQubits,
                   fallbackTwirlQubits := e.qubits.filter fun q => !(gateQubits.contains q) }

/-- The builders `get_builder` can return. -/
inductive BoxBuilder where
  | passthrough
  | leftBox (c : CollectionSpec) (e : EmissionSpec)
  | rightBox (c : CollectionSpec) (e : EmissionSpec)
  deriving DecidableEq, Repr

/-- Python truthiness of `emission.noise_ref` (`None` and the empty string are
falsy). -/
def noiseRefTruthy (e : EmissionSpec) : Bool :=
  match e.noiseRef with
  | some r => !(r == "")
  | none => false

/-- Embeds `get_builder`: a box without directives gets the passthrough builder;
otherwise the directives are parsed, noise injection without twirling is
rejected, the gate-dependent classification runs when the twirl kind is
`LOCAL_C1` (the sole member of `GATE_DEPENDENT_TWIRLING_GROUPS`), and the
dressing side selects the builder. -/
def getBuilder (annots : List Annot) (body : List BodyOp) (qubits : List Nat) :
    Except ErrKind BoxBuilder :=
  if annots.isEmpty then .ok .passthrough
  else
    match parseLoop annots [] initCollectionSpec (initEmissionSpec qubits) with
    | .error err => .error err
    | .ok (c, e) =>
      if noiseRefTruthy e && e.twirlRegisterType.isNone then .error .buildError
      else
        match (if e.twirlRegisterType = some VirtualType.localC1 then
            classifyGateDependentTwirl body e else .ok e) with
        | .error err => .error err
        | .ok e2 =>
          if c.dressing = some DressingMode.left then .ok (.leftBox c e2)
          else .ok (.rightBox c e2)

/-! # Part 2: theorems and examples -/

/-! ## BalancedUniformPauli (`distributions/balanced_uniform_pauli.py`) -/

theorem numBaseSamples_of_mod_eq_zero {size : Nat} (h : size % 4 = 0) :
    numBaseSamples size = size / 4 := by
  simp [numBaseSamples, h]

theorem numBaseSamples_of_mod_ne_zero {size : Nat} (h : ¬size % 4 = 0) :
    numBaseSamples size = size / 4 + 1 := by
  simp [numBaseSamples, h]

theorem balancedSampleRow_nil (size : Nat) : balancedSampleRow [] size = [] := by
  simp [balancedSampleRow]

theorem balancedSampleRow_cons (b : Nat) (rest : List Nat) (size : Nat) (h : 4 ≤ size) :
    balancedSampleRow (b :: rest) size =
      balancedBlock b ++ balancedSampleRow rest (size - 4) := by
  unfold balancedSampleRow balancedBlock
  rw [List.map_cons, List.flatten_cons, List.take_append_eq_append_take]
  have hlen : (multipliers.map (fun m => (m + b) % 4)).length = 4 := by
    simp [multipliers]
  rw [List.take_of_length_le (by omega), hlen]

theorem balancedBlock_count (b v : Nat) (hb : b < 4) (hv : v < 4) :
    (balancedBlock b).count v = 1 := by
  interval_cases b <;> interval_cases v <;> decide

theorem balancedBlock_countP (b : Nat) (hb : b < 4) :
    (balancedBlock b).countP (fun x => decide (2 ≤ x)) = 2 ∧
    (balancedBlock b).countP (fun x => decide (x < 2)) = 2 := by
  interval_cases b <;> exact ⟨by decide, by decide⟩

theorem balancedRow_count_of_four_dvd :
    ∀ (base : List Nat) (size : Nat), (∀ b ∈ base, b < 4) →
      base.length = numBaseSamples size → 4 ∣ size → ∀ v, v < 4 →
      (balancedSampleRow base size).count v = size / 4 := by
  intro base
  induction base with
  | nil =>
    intro size _ hlen hd v _
    obtain ⟨k, rfl⟩ := hd
    rw [numBaseSamples_of_mod_eq_zero (Nat.mul_mod_right 4 k), List.length_nil] at hlen
    have hk : k = 0 := by omega
    subst hk
    simp [balancedSampleRow]
  | cons b rest ih =>
    intro size hval hlen hd v hv
    obtain ⟨k, rfl⟩ := hd
    rw [numBaseSamples_of_mod_eq_zero (Nat.mul_mod_right 4 k), List.length_cons] at hlen
    have hk : 1 ≤ k := by omega
    have h4 : 4 ≤ 4 * k := by omega
    rw [balancedSampleRow_cons b rest (4 * k) h4, List.count_append,
      balancedBlock_count b v (hval b (by simp)) hv]
    have hrest : (balancedSampleRow rest (4 * k - 4)).count v = (4 * k - 4) / 4 := by
      refine ih (4 * k - 4) (fun x hx => hval x (by simp [hx])) ?_ ⟨k - 1, by omega⟩ v hv
      rw [numBaseSamples_of_mod_eq_zero (by omega)]
      omega
    rw [hrest]
    omega

theorem balancedRow_pi_balance :
    ∀ (base : List Nat) (size : Nat), (∀ b ∈ base, b < 4) →
      base.length = numBaseSamples size → 2 ∣ size →
      (balancedSampleRow base size).countP (fun x => decide (2 ≤ x)) =
        (balancedSampleRow base size).countP (fun x => decide (x < 2)) := by
  intro base
  induction base with
  | nil =>
    intro size _ hlen _
    simp [balancedSampleRow]
  | cons b rest ih =>
    intro size hval hlen hd
    rw [List.length_cons] at hlen
    by_cases h4 : 4 ≤ size
    · rw [balancedSampleRow_cons b rest size h4, List.countP_append, List.countP_append]
      obtain ⟨hxy, hiz⟩ := balancedBlock_countP b (hval b (by simp))
      rw [hxy, hiz]
      have hlen' : rest.length = numBaseSamples (size - 4) := by
        by_cases hm : size % 4 = 0
        · rw [numBaseSamples_of_mod_eq_zero hm] at hlen
          rw [numBaseSamples_of_mod_eq_zero (by omega)]
          omega
        · rw [numBaseSamples_of_mod_ne_zero hm] at hlen
          rw [numBaseSamples_of_mod_ne_zero (by omega)]
          omega
      have hrest := ih (size - 4) (fun x hx => hval x (by simp [hx])) hlen' (by omega)
      omega
    · -- size < 4 with 2 dividing size: either the empty sample or a half block
      have hsz : size = 0 ∨ size = 2 := by omega
      rcases hsz with rfl | rfl
      · simp [balancedSampleRow]
      · rw [numBaseSamples_of_mod_ne_zero (by omega)] at hlen
        have hrest : rest = [] := by
          have : rest.length = 0 := by omega
          exact List.length_eq_zero.mp this
        subst hrest
        have hb : b < 4 := hval b (by simp)
        interval_cases b <;> decide

/-! ## Single-qubit Clifford tableaus (`virtual_registers/c1_register.py`) -/

example :
    applyClifford1 ⟨⟨false, true, false⟩, ⟨true, true, false⟩⟩
      ⟨⟨true, true, false⟩, ⟨true, false, false⟩⟩ = idTableau1 := by decide

example :
    applyClifford1 ⟨⟨true, true, false⟩, ⟨false, true, false⟩⟩
      ⟨⟨false, true, false⟩, ⟨true, false, false⟩⟩ =
      ⟨⟨false, true, false⟩, ⟨true, true, false⟩⟩ := by decide

example :
    applyClifford1 ⟨⟨false, true, false⟩, ⟨true, false, false⟩⟩
      ⟨⟨true, true, false⟩, ⟨false, true, false⟩⟩ =
      ⟨⟨true, true, true⟩, ⟨true, false, false⟩⟩ := by decide

theorem mem_allTableaus (t : Tableau1) : t ∈ allTableaus := by
  obtain ⟨⟨a, b, c⟩, ⟨d, e, f⟩⟩ := t
  cases a <;> cases b <;> cases c <;> cases d <;> cases e <;> cases f <;> decide

example : (allTableaus.filter fun t => validTableau1 t).length = 24 := by decide

example :
    adjointTableau1 ⟨⟨false, true, false⟩, ⟨true, false, false⟩⟩ =
      ⟨⟨false, true, false⟩, ⟨true, false, false⟩⟩ := by decide

example :
    adjointTableau1 ⟨⟨true, true, false⟩, ⟨true, false, false⟩⟩ =
      ⟨⟨false, true, false⟩, ⟨true, true, false⟩⟩ := by decide

/-- On valid Clifford tableaus, the implementation of `apply_clifford` agrees
with the ground-truth composition. -/
theorem applyClifford1_eq_composeGT :
    ∀ c ∈ allTableaus, ∀ d ∈ allTableaus,
      validTableau1 c = true → validTableau1 d = true →
      applyClifford1 c d = composeGT c d := by decide

theorem applyClifford1_adjoint_of_valid :
    ∀ t ∈ allTableaus, validTableau1 t = true →
      applyClifford1 t (adjointTableau1 t) = idTableau1 := by decide

theorem c1_row_mul_adjoint (row : List Tableau1) (m : Nat) (hm : row.length = m)
    (hv : ∀ t ∈ row, validTableau1 t = true) :
    List.zipWith applyClifford1 row (row.map adjointTableau1) =
      List.replicate m idTableau1 := by
  induction row generalizing m with
  | nil => simp [← hm]
  | cons t rest ih =>
    subst hm
    rw [List.map_cons, List.zipWith_cons_cons, List.length_cons, List.replicate_succ,
      applyClifford1_adjoint_of_valid t (mem_allTableaus t) (hv t (by simp)),
      ih rest.length rfl (fun u hu => hv u (by simp [hu]))]

/-- C4: for every C1 register whose elements are valid single-qubit Clifford
tableaus (as those sampled from any distribution are),
`r.multiply(r.invert())` equals `identity(num_subsystems, num_randomizations)`. -/
theorem c1_multiply_invert_eq_identity (r : List (List Tableau1)) (n m : Nat)
    (hn : r.length = n) (hm : ∀ row ∈ r, row.length = m)
    (hv : ∀ row ∈ r, ∀ t ∈ row, validTableau1 t = true) :
    c1Multiply r (c1Invert r) = c1Identity n m := by
  subst hn
  induction r with
  | nil => simp [c1Multiply, c1Invert, c1Identity]
  | cons row rest ih =>
    rw [List.length_cons]
    unfold c1Multiply c1Invert c1Identity
    rw [List.map_cons, List.zipWith_cons_cons, List.replicate_succ,
      c1_row_mul_adjoint row m (hm row (by simp)) (hv row (by simp))]
    have := ih (fun rw hrw => hm rw (by simp [hrw])) (fun rw hrw => hv rw (by simp [hrw]))
    unfold c1Multiply c1Invert c1Identity at this
    rw [this]

/-- Witness for C4 at a concrete 1×1 register holding a valid non-identity
Clifford tableau. -/
theorem c1_multiply_invert_eq_identity_witness :
    ([[(⟨⟨true, true, false⟩, ⟨true, false, false⟩⟩ : Tableau1)]].length = 1) ∧
    (∀ row ∈ [[(⟨⟨true, true, false⟩, ⟨true, false, false⟩⟩ : Tableau1)]],
      row.length = 1) ∧
    (∀ row ∈ [[(⟨⟨true, true, false⟩, ⟨true, false, false⟩⟩ : Tableau1)]],
      ∀ t ∈ row, validTableau1 t = true) ∧
    c1Multiply [[(⟨⟨true, true, false⟩, ⟨true, false, false⟩⟩ : Tableau1)]]
        (c1Invert [[(⟨⟨true, true, false⟩, ⟨true, false, false⟩⟩ : Tableau1)]]) =
      c1Identity 1 1 :=
  ⟨rfl, by decide, by decide,
    c1_multiply_invert_eq_identity _ 1 1 rfl (by decide) (by decide)⟩

/-! ## `C1Register.convert_to` -/

/-- C3 fails on the code: converting a concrete C1 register (the 1×1 identity)
to U2 does not succeed; `convert_to` raises `NotImplementedError`. -/
theorem c1_convert_to_u2_counterexample :
    c1ConvertTo (c1Identity 1 1) VirtualType.u2 = .error .notImplementedError ∧
    (c1ConvertTo (c1Identity 1 1) VirtualType.u2).toOption = none :=
  ⟨rfl, rfl⟩

/-- C3 (amended): for every C1 register `r`, `r.convert_to(U2)` raises
`NotImplementedError`: conversion from C1 to U2 is not supported by the code,
even though `U2` is listed in `C1Register.CONVERTABLE_TYPES`. -/
theorem c1_convert_to_u2_amended (r : List (List Tableau1)) :
    c1ConvertTo r VirtualType.u2 = .error .notImplementedError := rfl

/-! ## C1PastCliffordNode (`samplex/nodes/c1_past_clifford_node.py`) -/

theorem getD_set_ne {α : Type} (l : List α) (i j : Nat) (x d : α) (h : i ≠ j) :
    (l.set i x).getD j d = l.getD j d := by
  rw [List.getD_eq_getElem?_getD, List.getD_eq_getElem?_getD, List.getElem?_set_ne h]

theorem getD_set_self {α : Type} (l : List α) (i : Nat) (x d : α) (h : i < l.length) :
    (l.set i x).getD i d = x := by
  rw [List.getD_eq_getElem?_getD, List.getElem?_set_eq_of_lt x h, Option.getD_some]

/-- C2: for every number of subsystems and every realization of the uniform base
draws, a `BalancedUniformPauli` sample contains, in every subsystem row, each of
the four Pauli values exactly `size / 4` times when `4 ∣ size`, and equally many
elements of `{X, Y}` (indices 2, 3) and of `{I, Z}` (indices 0, 1) when
`2 ∣ size`. -/
theorem balancedUniformPauli_balanced (size : Nat) (base : List (List Nat))
    (hval : ∀ row ∈ base, ∀ b ∈ row, b < 4)
    (hlen : ∀ row ∈ base, row.length = numBaseSamples size) :
    ∀ row ∈ balancedUniformPauliSample size base,
      ((4 ∣ size) → ∀ v, v < 4 → row.count v = size / 4) ∧
      ((2 ∣ size) →
        row.countP (fun x => decide (2 ≤ x)) = row.countP (fun x => decide (x < 2))) := by
  intro row hrow
  simp only [balancedUniformPauliSample, List.mem_map] at hrow
  obtain ⟨r, hr, rfl⟩ := hrow
  exact ⟨fun hd v hv => balancedRow_count_of_four_dvd r size (hval r hr) (hlen r hr) hd v hv,
    fun hd => balancedRow_pi_balance r size (hval r hr) (hlen r hr) hd⟩

/-- Witness for C2 at size 4 with the single base draw `[[2]]`. -/
theorem balancedUniformPauli_balanced_witness :
    (∀ row ∈ ([[2]] : List (List Nat)), ∀ b ∈ row, b < 4) ∧
    (∀ row ∈ ([[2]] : List (List Nat)), row.length = numBaseSamples 4) ∧
    (∀ row ∈ balancedUniformPauliSample 4 [[2]],
      ((4 ∣ 4) → ∀ v, v < 4 → row.count v = 4 / 4) ∧
      ((2 ∣ 4) →
        row.countP (fun x => decide (2 ≤ x)) = row.countP (fun x => decide (x < 2)))) :=
  ⟨by decide, by decide, balancedUniformPauli_balanced 4 [[2]] (by decide) (by decide)⟩

/-! ## Theorems about `C1PastCliffordNode.evaluate` -/

theorem getD_row_length (reg : List (List Nat)) (m i : Nat)
    (hrect : ∀ row ∈ reg, row.length = m) (hi : i < reg.length) :
    (reg.getD i []).length = m := by
  rw [List.getD_eq_getElem _ _ hi]
  exact hrect _ (List.getElem_mem hi)

theorem pairLookups_eq (node : C1PastCliffordNode) (reg : List (List Nat))
    (p : Nat × Nat) (m : Nat) (hrect : ∀ row ∈ reg, row.length = m)
    (h1 : p.1 < reg.length) (h2 : p.2 < reg.length) :
    pairLookups node reg p =
      (List.range m).map fun k => node.table (regVal reg p.1 k) (regVal reg p.2 k) := by
  have hla : (reg.getD p.1 []).length = m := getD_row_length reg m p.1 hrect h1
  have hlb : (reg.getD p.2 []).length = m := getD_row_length reg m p.2 hrect h2
  apply List.ext_getElem
  · simp only [pairLookups, List.length_map, List.length_zip, List.length_range]
    rw [hla, hlb]
    exact Nat.min_self m
  · intro k hk1 hk2
    have hka : k < (reg.getD p.1 []).length := by
      simp only [pairLookups, List.length_map, List.length_zip, hla, hlb] at hk1
      omega
    have hkb : k < (reg.getD p.2 []).length := by rw [hlb]; rw [hla] at hka; exact hka
    simp only [pairLookups, List.getElem_map, List.getElem_zip, List.getElem_range, regVal]
    rw [List.getD_eq_getElem _ _ hka, List.getD_eq_getElem _ _ hkb]

theorem pairLookups_sentinel_iff (node : C1PastCliffordNode) (reg : List (List Nat))
    (p : Nat × Nat) (m : Nat) (hrect : ∀ row ∈ reg, row.length = m)
    (h1 : p.1 < reg.length) (h2 : p.2 < reg.length) :
    ((pairLookups node reg p).any fun q => decide (q.1 < 0) || decide (q.2 < 0)) = true ↔
      ∃ k, k < m ∧
        ((node.table (regVal reg p.1 k) (regVal reg p.2 k)).1 < 0 ∨
          (node.table (regVal reg p.1 k) (regVal reg p.2 k)).2 < 0) := by
  rw [pairLookups_eq node reg p m hrect h1 h2]
  simp [List.any_map, List.any_eq_true, Function.comp]

theorem hasSentinel_iff (node : C1PastCliffordNode) (reg : List (List Nat)) (m : Nat)
    (hrect : ∀ row ∈ reg, row.length = m)
    (hb : ∀ p ∈ node.pairs, p.1 < reg.length ∧ p.2 < reg.length) :
    hasSentinel node reg = true ↔
      ∃ p ∈ node.pairs, ∃ k, k < m ∧
        ((node.table (regVal reg p.1 k) (regVal reg p.2 k)).1 < 0 ∨
          (node.table (regVal reg p.1 k) (regVal reg p.2 k)).2 < 0) := by
  unfold hasSentinel
  rw [List.any_eq_true]
  constructor
  · rintro ⟨p, hp, hany⟩
    exact ⟨p, hp, (pairLookups_sentinel_iff node reg p m hrect (hb p hp).1 (hb p hp).2).mp hany⟩
  · rintro ⟨p, hp, hex⟩
    exact ⟨p, hp, (pairLookups_sentinel_iff node reg p m hrect (hb p hp).1 (hb p hp).2).mpr hex⟩

theorem writePairResult_length (reg : List (List Nat)) (p : Nat × Nat)
    (outs : List (Int × Int)) : (writePairResult reg p outs).length = reg.length := by
  simp [writePairResult]

theorem foldWrite_length (L : List ((Nat × Nat) × List (Int × Int))) :
    ∀ (acc : List (List Nat)),
      (L.foldl (fun a po => writePairResult a po.1 po.2) acc).length = acc.length := by
  induction L with
  | nil => intro acc; rfl
  | cons hd tl ih =>
    intro acc
    rw [List.foldl_cons, ih, writePairResult_length]

theorem foldWrite_frame (L : List ((Nat × Nat) × List (Int × Int))) :
    ∀ (acc : List (List Nat)) (i : Nat), (∀ pr ∈ L, pr.1.1 ≠ i ∧ pr.1.2 ≠ i) →
      (L.foldl (fun a po => writePairResult a po.1 po.2) acc).getD i [] = acc.getD i [] := by
  induction L with
  | nil => intro acc i _; rfl
  | cons hd tl ih =>
    intro acc i hne
    rw [List.foldl_cons, ih _ i (fun pr hpr => hne pr (by simp [hpr]))]
    have h1 : hd.1.1 ≠ i := (hne hd (by simp)).1
    have h2 : hd.1.2 ≠ i := (hne hd (by simp)).2
    unfold writePairResult
    rw [getD_set_ne _ _ _ _ _ h2, getD_set_ne _ _ _ _ _ h1]

theorem writePairResult_fst (reg : List (List Nat)) (p : Nat × Nat)
    (outs : List (Int × Int)) (hne : p.1 ≠ p.2) (h1 : p.1 < reg.length) :
    (writePairResult reg p outs).getD p.1 [] = outs.map fun q => q.1.toNat := by
  unfold writePairResult
  rw [getD_set_ne _ _ _ _ _ (Ne.symm hne), getD_set_self _ _ _ _ h1]

theorem writePairResult_snd (reg : List (List Nat)) (p : Nat × Nat)
    (outs : List (Int × Int)) (h2 : p.2 < reg.length) :
    (writePairResult reg p outs).getD p.2 [] = outs.map fun q => q.2.toNat := by
  unfold writePairResult
  rw [getD_set_self _ _ _ _ (by simpa using h2)]

theorem foldWrite_spec (L : List ((Nat × Nat) × List (Int × Int))) :
    ∀ (acc : List (List Nat)),
      (L.flatMap fun pr => [pr.1.1, pr.1.2]).Nodup →
      (∀ pr ∈ L, pr.1.1 < acc.length ∧ pr.1.2 < acc.length) →
      ∀ pr ∈ L,
        (L.foldl (fun a po => writePairResult a po.1 po.2) acc).getD pr.1.1 [] =
          (pr.2.map fun q => q.1.toNat) ∧
        (L.foldl (fun a po => writePairResult a po.1 po.2) acc).getD pr.1.2 [] =
          (pr.2.map fun q => q.2.toNat) := by
  induction L with
  | nil => intro acc _ _ pr hpr; exact absurd hpr (by simp)
  | cons hd tl ih =>
    intro acc hnd hbnd pr hpr
    rw [List.flatMap_cons, List.nodup_append] at hnd
    obtain ⟨hnd1, hnd2, hdisj⟩ := hnd
    rw [List.foldl_cons]
    rcases List.mem_cons.mp hpr with rfl | hmem
    · have hne : pr.1.1 ≠ pr.1.2 := by simpa using hnd1
      have hfr1 : ∀ pr2 ∈ tl, pr2.1.1 ≠ pr.1.1 ∧ pr2.1.2 ≠ pr.1.1 := by
        intro pr2 hpr2
        have hni : pr.1.1 ∉ tl.flatMap fun x => [x.1.1, x.1.2] := by
          intro hcontra
          exact (List.disjoint_left.mp hdisj) (by simp) hcontra
        constructor <;> intro heq <;> exact hni (List.mem_flatMap.mpr ⟨pr2, hpr2, by simp [heq]⟩)
      have hfr2 : ∀ pr2 ∈ tl, pr2.1.1 ≠ pr.1.2 ∧ pr2.1.2 ≠ pr.1.2 := by
        intro pr2 hpr2
        have hni : pr.1.2 ∉ tl.flatMap fun x => [x.1.1, x.1.2] := by
          intro hcontra
          exact (List.disjoint_left.mp hdisj) (by simp) hcontra
        constructor <;> intro heq <;> exact hni (List.mem_flatMap.mpr ⟨pr2, hpr2, by simp [heq]⟩)
      rw [foldWrite_frame tl _ pr.1.1 hfr1, foldWrite_frame tl _ pr.1.2 hfr2]
      obtain ⟨hb1, hb2⟩ := hbnd pr (by simp)
      exact ⟨writePairResult_fst acc pr.1 pr.2 hne hb1, writePairResult_snd acc pr.1 pr.2 hb2⟩
    · refine ih (writePairResult acc hd.1 hd.2) hnd2 ?_ pr hmem
      intro pr2 hpr2
      have := hbnd pr2 (by simp [hpr2])
      rw [writePairResult_length]
      exact this

/-- C5: with a rectangular register and in-bounds, non-repeating subsystem
indices, `C1PastCliffordNode.evaluate` raises `SamplexRuntimeError` if and only
if, for some listed subsystem pair and some randomization, the pair of C1
indices currently stored in the register maps to a sentinel (negative) entry of
the entangler lookup table; otherwise it replaces each stored pair `(c0, c1)`
with the result pair of the table. -/
theorem c1PastClifford_evaluate_spec (node : C1PastCliffordNode)
    (reg : List (List Nat)) (m : Nat)
    (hrect : ∀ row ∈ reg, row.length = m)
    (hb : ∀ p ∈ node.pairs, p.1 < reg.length ∧ p.2 < reg.length)
    (hnd : (node.pairs.flatMap fun p => [p.1, p.2]).Nodup) :
    ((c1PastCliffordEvaluate node reg).2 = some ErrKind.samplexRuntimeError ↔
      ∃ p ∈ node.pairs, ∃ k, k < m ∧
        ((node.table (regVal reg p.1 k) (regVal reg p.2 k)).1 < 0 ∨
          (node.table (regVal reg p.1 k) (regVal reg p.2 k)).2 < 0)) ∧
    ((c1PastCliffordEvaluate node reg).2 = none →
      ∀ p ∈ node.pairs, ∀ k, k < m →
        regVal (c1PastCliffordEvaluate node reg).1 p.1 k =
          (node.table (regVal reg p.1 k) (regVal reg p.2 k)).1.toNat ∧
        regVal (c1PastCliffordEvaluate node reg).1 p.2 k =
          (node.table (regVal reg p.1 k) (regVal reg p.2 k)).2.toNat) := by
  by_cases hs : hasSentinel node reg
  · constructor
    · simp only [c1PastCliffordEvaluate, if_pos hs]
      simp only [Option.some.injEq, true_iff, eq_self_iff_true]
      exact (hasSentinel_iff node reg m hrect hb).mp hs
    · simp only [c1PastCliffordEvaluate, if_pos hs]
      intro hcontra
      exact absurd hcontra (by simp)
  · have hs2 : hasSentinel node reg = false := by simpa using hs
    constructor
    · simp only [c1PastCliffordEvaluate, if_neg hs]
      constructor
      · intro hcontra
        exact absurd hcontra (by simp)
      · intro hex
        exact absurd ((hasSentinel_iff node reg m hrect hb).mpr hex) hs
    · intro _ p hp k hk
      have hL : ∀ pr ∈ node.pairs.map fun q => (q, pairLookups node reg q),
          pr.1.1 < reg.length ∧ pr.1.2 < reg.length := by
        intro pr hpr
        obtain ⟨q, hq, rfl⟩ := List.mem_map.mp hpr
        exact hb q hq
      have hndL : ((node.pairs.map fun q => (q, pairLookups node reg q)).flatMap
          fun pr => [pr.1.1, pr.1.2]).Nodup := by
        rw [List.flatMap_map]
        exact hnd
      have hmemL : (p, pairLookups node reg p) ∈
          node.pairs.map fun q => (q, pairLookups node reg q) :=
        List.mem_map.mpr ⟨p, hp, rfl⟩
      have hw := foldWrite_spec (node.pairs.map fun q => (q, pairLookups node reg q)) reg
        hndL hL (p, pairLookups node reg p) hmemL
      have hres : (c1PastCliffordEvaluate node reg).1 =
          (node.pairs.map fun q => (q, pairLookups node reg q)).foldl
            (fun a po => writePairResult a po.1 po.2) reg := by
        simp only [c1PastCliffordEvaluate, if_neg hs]
      have hval : ∀ (f : Int × Int → Nat),
          ((pairLookups node reg p).map f).getD k 0 =
            f (node.table (regVal reg p.1 k) (regVal reg p.2 k)) := by
        intro f
        rw [pairLookups_eq node reg p m hrect (hb p hp).1 (hb p hp).2, List.map_map]
        have hkl : k < ((List.range m).map
            (f ∘ fun j => node.table (regVal reg p.1 j) (regVal reg p.2 j))).length := by
          simpa using hk
        rw [List.getD_eq_getElem _ _ hkl]
        simp
      constructor
      · rw [hres]
        unfold regVal
        rw [hw.1]
        exact hval fun q => q.1.toNat
      · rw [hres]
        unfold regVal
        rw [hw.2]
        exact hval fun q => q.2.toNat

/-- Witness for C5 at a concrete node and 2×1 register with a sentinel-free
table: no error is raised and the (here: identity) lookup results are written
back. -/
theorem c1PastClifford_evaluate_spec_witness :
    (∀ row ∈ ([[1], [2]] : List (List Nat)), row.length = 1) ∧
    (∀ p ∈ [((0 : Nat), (1 : Nat))], p.1 < ([[1], [2]] : List (List Nat)).length ∧
      p.2 < ([[1], [2]] : List (List Nat)).length) ∧
    ((([((0 : Nat), (1 : Nat))] : List (Nat × Nat)).flatMap fun p => [p.1, p.2]).Nodup) ∧
    (((c1PastCliffordEvaluate ⟨[(0, 1)], plainTable⟩ [[1], [2]]).2 =
        some ErrKind.samplexRuntimeError ↔
      ∃ p ∈ [((0 : Nat), (1 : Nat))], ∃ k, k < 1 ∧
        ((plainTable (regVal [[1], [2]] p.1 k) (regVal [[1], [2]] p.2 k)).1 < 0 ∨
          (plainTable (regVal [[1], [2]] p.1 k) (regVal [[1], [2]] p.2 k)).2 < 0)) ∧
    ((c1PastCliffordEvaluate ⟨[(0, 1)], plainTable⟩ [[1], [2]]).2 = none →
      ∀ p ∈ [((0 : Nat), (1 : Nat))], ∀ k, k < 1 →
        regVal (c1PastCliffordEvaluate ⟨[(0, 1)], plainTable⟩ [[1], [2]]).1 p.1 k =
          (plainTable (regVal [[1], [2]] p.1 k) (regVal [[1], [2]] p.2 k)).1.toNat ∧
        regVal (c1PastCliffordEvaluate ⟨[(0, 1)], plainTable⟩ [[1], [2]]).1 p.2 k =
          (plainTable (regVal [[1], [2]] p.1 k) (regVal [[1], [2]] p.2 k)).2.toNat)) :=
  ⟨by decide, by decide, by decide,
    c1PastClifford_evaluate_spec ⟨[(0, 1)], plainTable⟩ [[1], [2]] 1
      (by decide) (by decide) (by decide)⟩

/-- C10: `C1PastCliffordNode.evaluate` computes all lookup results and checks
them for sentinels before performing any write; when it raises, the targeted
register is exactly as it was before the call. -/
theorem c1PastClifford_evaluate_atomic (node : C1PastCliffordNode)
    (reg : List (List Nat))
    (h : (c1PastCliffordEvaluate node reg).2.isSome = true) :
    (c1PastCliffordEvaluate node reg).1 = reg := by
  by_cases hs : hasSentinel node reg
  · simp [c1PastCliffordEvaluate, if_pos hs]
  · simp only [c1PastCliffordEvaluate, if_neg hs, Option.isSome_none] at h
    exact absurd h (by simp)

/-- Witness for C10: a node whose table is sentinel everywhere raises and
leaves the concrete register `[[0], [1]]` untouched. -/
theorem c1PastClifford_evaluate_atomic_witness :
    ((c1PastCliffordEvaluate ⟨[(0, 1)], sentinelTable⟩ [[0], [1]]).2.isSome = true) ∧
    (c1PastCliffordEvaluate ⟨[(0, 1)], sentinelTable⟩ [[0], [1]]).1 = [[0], [1]] :=
  ⟨by decide, c1PastClifford_evaluate_atomic ⟨[(0, 1)], sentinelTable⟩ [[0], [1]] (by decide)⟩

/-! ## Samplex.sample entry guards (`samplex/samplex.py`) -/

/-- C6: `Samplex.sample` raises an error, before doing any sampling work,
whenever the samplex has not been finalized by an explicit `finalize()` call or
the input bundle is not fully bound; and it leaves the samplex state — in
particular the `_finalized` flag — unchanged, so `sample` never implicitly
finalizes. -/
theorem samplex_sample_guards (s : SamplexState) (inp : InputBundle)
    (h : s.finalized = false ∨ fullyBound s.inputSpecs inp = false) :
    (sampleRun s inp).2 = .error ErrKind.samplexRuntimeError ∧
    (sampleRun s inp).1 = s ∧
    (sampleRun s inp).1.finalized = s.finalized := by
  unfold sampleRun
  rcases h with h | h
  · rw [if_pos h]
    exact ⟨rfl, rfl, rfl⟩
  · by_cases hf : s.finalized = false
    · rw [if_pos hf]
      exact ⟨rfl, rfl, rfl⟩
    · rw [if_neg hf, if_pos h]
      exact ⟨rfl, rfl, rfl⟩

/-- Witness for C6: an unfinalized samplex raises even on a bindable input. -/
theorem samplex_sample_guards_witness :
    ((⟨false, [⟨"parameter_values", false⟩]⟩ : SamplexState).finalized = false ∨
      fullyBound [⟨"parameter_values", false⟩] ⟨[]⟩ = false) ∧
    ((sampleRun ⟨false, [⟨"parameter_values", false⟩]⟩ ⟨[]⟩).2 =
      .error ErrKind.samplexRuntimeError ∧
    (sampleRun ⟨false, [⟨"parameter_values", false⟩]⟩ ⟨[]⟩).1 =
      ⟨false, [⟨"parameter_values", false⟩]⟩ ∧
    (sampleRun ⟨false, [⟨"parameter_values", false⟩]⟩ ⟨[]⟩).1.finalized =
      (⟨false, [⟨"parameter_values", false⟩]⟩ : SamplexState).finalized) :=
  ⟨Or.inl rfl, samplex_sample_guards _ _ (Or.inl rfl)⟩

/-! ## Samplex serialization (`samplex/samplex_serialization.py`) -/

/-- C7 fails on the code: loading data whose SSV lies outside the supported
range `[SSV_MIN_SUPPORTED, SSV] = [1, 1]` (here `"2"` above and `"0"` below it)
reaches a bare `raise` and surfaces an untyped `RuntimeError`, not the
well-typed serialization error that the spec requires. -/
theorem samplex_from_json_ssv_untyped :
    samplexFromGraphDispatch (some "2") = .error ErrKind.untypedRuntimeError ∧
    samplexFromGraphDispatch (some "0") = .error ErrKind.untypedRuntimeError ∧
    ErrKind.untypedRuntimeError ≠ ErrKind.serializationError :=
  ⟨rfl, rfl, by decide⟩

/-- C1 fails on the code: `TwirlSamplingNode._to_json_dict` maps a node whose
distribution is `BalancedUniformPauli(2)` and a node whose distribution is
`UniformPauli(2)` to the same field dictionary although the nodes differ, so no
deserializer can restore both distributions; and the passthrough-parameter map
`([0], [1])` round-trips through `_serialize_passthrough_params` and
`_deserialize_passthrough_params` to `([0], [[1]])`, not the original value. -/
theorem samplex_serialization_roundtrip_code_bug :
    (twirlSamplingToJsonDict ⟨"lhs", "rhs", .balancedUniformPauli 2⟩ =
      twirlSamplingToJsonDict ⟨"lhs", "rhs", .uniformPauli 2⟩) ∧
    ((⟨"lhs", "rhs", .balancedUniformPauli 2⟩ : TwirlSamplingNode) ≠
      ⟨"lhs", "rhs", .uniformPauli 2⟩) ∧
    deserializePassthroughParams
        (serializePassthroughParams (some (.jarr [.jnum 0], .jarr [.jnum 1]))) ≠
      some (some (.jarr [.jnum 0], .jarr [.jnum 1])) := by
  refine ⟨rfl, by decide, ?_⟩
  intro h
  simp only [serializePassthroughParams, deserializePassthroughParams,
    Option.some.injEq, Prod.mk.injEq] at h
  obtain ⟨-, h2⟩ := h
  injection h2 with h3
  injection h3 with h4 h5
  exact Json.noConfusion h4

/-! ## Theorems about the builder dispatch -/

theorem classifyStep_error_kind (st : List (Nat × Nat) × List String) (op : BodyOp)
    (err : ErrKind) (h : classifyStep st op = .error err) : err = ErrKind.buildError := by
  unfold classifyStep at h
  by_cases h2q : (op.qargs.length == 2) = true
  · rw [if_pos h2q] at h
    by_cases hsp : (st.1.any fun q => samePair q op.pair) = true
    · rw [if_pos hsp] at h
      injection h with h2
      exact h2.symm
    · rw [if_neg hsp] at h
      by_cases hov : (st.1.any fun q => pairsOverlap q op.pair) = true
      · rw [if_pos hov] at h
        injection h with h2
        exact h2.symm
      · rw [if_neg hov] at h
        exact Except.noConfusion h
  · rw [if_neg h2q] at h
    exact Except.noConfusion h

theorem classifyFold_error_kind :
    ∀ (body : List BodyOp) (st : List (Nat × Nat) × List String) (err : ErrKind),
      classifyFold body st = .error err → err = ErrKind.buildError := by
  intro body
  induction body with
  | nil => intro st err h; exact Except.noConfusion h
  | cons op rest ih =>
    intro st err h
    unfold classifyFold at h
    cases hstep : classifyStep st op with
    | error e2 =>
      simp only [hstep] at h
      injection h with h2
      rw [← h2]
      exact classifyStep_error_kind st op e2 hstep
    | ok st2 =>
      simp only [hstep] at h
      exact ih st2 err h

theorem classifyStep_skip (st : List (Nat × Nat) × List String) (op : BodyOp)
    (h : (op.qargs.length == 2) = false) : classifyStep st op = .ok st := by
  simp [classifyStep, h]

theorem classifyFold_of_no_twoQ :
    ∀ (body : List BodyOp) (st : List (Nat × Nat) × List String),
      twoQOps body = [] → classifyFold body st = .ok st := by
  intro body
  induction body with
  | nil => intro st _; rfl
  | cons op rest ih =>
    intro st h
    unfold twoQOps at h
    rw [List.filter_cons] at h
    by_cases hp : (op.qargs.length == 2) = true
    · rw [if_pos hp] at h
      exact absurd h (by simp)
    · have hp2 : (op.qargs.length == 2) = false := by simpa using hp
      rw [hp2] at h
      simp only [Bool.false_eq_true, if_false] at h
      unfold classifyFold
      rw [classifyStep_skip st op hp2]
      exact ih st h

theorem classifyStep_names_mono (st : List (Nat × Nat) × List String) (op : BodyOp)
    (st2 : List (Nat × Nat) × List String) (h : classifyStep st op = .ok st2) :
    ∀ x ∈ st.2, x ∈ st2.2 := by
  unfold classifyStep at h
  by_cases h2q : (op.qargs.length == 2) = true
  · rw [if_pos h2q] at h
    by_cases hsp : (st.1.any fun q => samePair q op.pair) = true
    · rw [if_pos hsp] at h
      exact Except.noConfusion h
    · rw [if_neg hsp] at h
      by_cases hov : (st.1.any fun q => pairsOverlap q op.pair) = true
      · rw [if_pos hov] at h
        exact Except.noConfusion h
      · rw [if_neg hov] at h
        injection h with h2
        intro x hx
        rw [← h2]
        by_cases hn : op.name ∈ st.2
        · simpa [hn] using hx
        · simp only [hn, if_false]
          simp [hx]
  · rw [if_neg h2q] at h
    injection h with h2
    intro x hx
    rw [← h2]
    exact hx

theorem classifyFold_names_mono :
    ∀ (body : List BodyOp) (st st2 : List (Nat × Nat) × List String),
      classifyFold body st = .ok st2 → ∀ x ∈ st.2, x ∈ st2.2 := by
  intro body
  induction body with
  | nil =>
    intro st st2 h x hx
    injection h with h2
    rw [← h2]
    exact hx
  | cons op rest ih =>
    intro st st2 h x hx
    unfold classifyFold at h
    cases hstep : classifyStep st op with
    | error e2 =>
      simp only [hstep] at h
      exact Except.noConfusion h
    | ok st1 =>
      simp only [hstep] at h
      exact ih st1 st2 h x (classifyStep_names_mono st op st1 hstep x hx)

theorem classifyStep_adds_name (st : List (Nat × Nat) × List String) (op : BodyOp)
    (st2 : List (Nat × Nat) × List String) (hop : (op.qargs.length == 2) = true)
    (h : classifyStep st op = .ok st2) : op.name ∈ st2.2 := by
  unfold classifyStep at h
  rw [if_pos hop] at h
  by_cases hsp : (st.1.any fun q => samePair q op.pair) = true
  · rw [if_pos hsp] at h
    exact Except.noConfusion h
  · rw [if_neg hsp] at h
    by_cases hov : (st.1.any fun q => pairsOverlap q op.pair) = true
    · rw [if_pos hov] at h
      exact Except.noConfusion h
    · rw [if_neg hov] at h
      injection h with h2
      rw [← h2]
      by_cases hn : op.name ∈ st.2
      · simp [hn]
      · simp [hn]

theorem classifyFold_contains_names :
    ∀ (body : List BodyOp) (st st2 : List (Nat × Nat) × List String),
      classifyFold body st = .ok st2 → ∀ op ∈ twoQOps body, op.name ∈ st2.2 := by
  intro body
  induction body with
  | nil => intro st st2 _ op hop; exact absurd hop (by simp [twoQOps])
  | cons op rest ih =>
    intro st st2 h op2 hop2
    unfold classifyFold at h
    cases hstep : classifyStep st op with
    | error e2 =>
      simp only [hstep] at h
      exact Except.noConfusion h
    | ok st1 =>
      simp only [hstep] at h
      unfold twoQOps at hop2
      rw [List.filter_cons] at hop2
      by_cases hp : (op.qargs.length == 2) = true
      · rw [if_pos hp] at hop2
        rcases List.mem_cons.mp hop2 with rfl | hmem
        · exact classifyFold_names_mono rest st1 st2 h op2.name
            (classifyStep_adds_name st op2 st1 hp hstep)
        · exact ih st1 st2 h op2 hmem
      · have hp2 : (op.qargs.length == 2) = false := by simpa using hp
        rw [hp2] at hop2
        simp only [Bool.false_eq_true, if_false] at hop2
        exact ih st1 st2 h op2 hop2

theorem two_mem_two_le_length {α : Type} (l : List α) (a b : α)
    (ha : a ∈ l) (hb : b ∈ l) (hne : a ≠ b) : 2 ≤ l.length := by
  cases l with
  | nil => exact absurd ha (by simp)
  | cons x t =>
    cases t with
    | nil =>
      simp only [List.mem_singleton] at ha hb
      exact absurd (ha.trans hb.symm) hne
    | cons y u => simp only [List.length_cons]; omega

/-- C8 (amended): when a box requests gate-dependent (local-C1) twirling, a
body containing two-qubit gates of two or more distinct types makes the
classification raise `BuildError`; a body containing no two-qubit gates at all
raises no error and silently demotes the twirl register kind to Pauli. -/
theorem classify_gate_dependent_twirl_spec (body : List BodyOp) (e : EmissionSpec)
    (h : (∃ op1 ∈ twoQOps body, ∃ op2 ∈ twoQOps body, op1.name ≠ op2.name) ∨
      twoQOps body = []) :
    classifyGateDependentTwirl body e =
      if twoQOps body = [] then
        .ok { e with twirlRegisterType := some VirtualType.pauli }
      else .error ErrKind.buildError := by
  rcases h with ⟨op1, h1, op2, h2, hne⟩ | hempty
  · have hnonempty : ¬twoQOps body = [] := by
      intro hc
      rw [hc] at h1
      exact absurd h1 (by simp)
    rw [if_neg hnonempty]
    unfold classifyGateDependentTwirl
    cases hf : classifyFold body ([], []) with
    | error err =>
      obtain rfl := classifyFold_error_kind body ([], []) err hf
      rfl
    | ok st =>
      obtain ⟨pairs, names⟩ := st
      have hn1 : op1.name ∈ names :=
        classifyFold_contains_names body ([], []) (pairs, names) hf op1 h1
      have hn2 : op2.name ∈ names :=
        classifyFold_contains_names body ([], []) (pairs, names) hf op2 h2
      have hnames : op1.name ≠ op2.name → 2 ≤ names.length :=
        fun hh => two_mem_two_le_length names _ _ hn1 hn2 hh
      have hlen : 2 ≤ names.length := hnames hne
      have hnonnil : names.isEmpty = false := by
        cases names with
        | nil => simp at hlen
        | cons _ _ => rfl
      simp only [hnonnil, Bool.false_eq_true, if_false]
      rw [if_pos (by omega)]
  · rw [if_pos hempty]
    unfold classifyGateDependentTwirl
    rw [classifyFold_of_no_twoQ body ([], []) hempty]
    rfl

/-- Witness for C8 at a concrete local-C1 box body holding a CX and a CZ gate
on disjoint qubit pairs. -/
theorem classify_gate_dependent_twirl_spec_witness :
    ((∃ op1 ∈ twoQOps [⟨"cx", [0, 1]⟩, ⟨"cz", [2, 3]⟩],
        ∃ op2 ∈ twoQOps [⟨"cx", [0, 1]⟩, ⟨"cz", [2, 3]⟩], op1.name ≠ op2.name) ∨
      twoQOps [⟨"cx", [0, 1]⟩, ⟨"cz", [2, 3]⟩] = []) ∧
    classifyGateDependentTwirl [⟨"cx", [0, 1]⟩, ⟨"cz", [2, 3]⟩]
        (initEmissionSpec [0, 1, 2, 3]) =
      (if twoQOps [⟨"cx", [0, 1]⟩, ⟨"cz", [2, 3]⟩] = [] then
        .ok { initEmissionSpec [0, 1, 2, 3] with
                twirlRegisterType := some VirtualType.pauli }
      else .error ErrKind.buildError) :=
  ⟨Or.inl (by decide),
    classify_gate_dependent_twirl_spec [⟨"cx", [0, 1]⟩, ⟨"cz", [2, 3]⟩]
      (initEmissionSpec [0, 1, 2, 3]) (Or.inl (by decide))⟩

/-- C8 fails as stated: building a gate-dependent twirl box whose body holds
two distinct 2Q gate types raises `BuildError`, which is not
`SamplexBuildError` (the repo's own tests match this error with
`pytest.raises(BuildError, ...)`). -/
theorem gate_dependent_multiple_types_counterexample :
    getBuilder [Annot.twirl VirtualType.localC1 DressingMode.left SynthMode.rzsx]
        [⟨"cx", [0, 1]⟩, ⟨"cz", [2, 3]⟩] [0, 1, 2, 3] = .error ErrKind.buildError ∧
    ErrKind.buildError ≠ ErrKind.samplexBuildError :=
  ⟨rfl, by decide⟩

theorem applySynth_error_kind (sy : SynthMode) (c : CollectionSpec) (err : ErrKind)
    (h : applySynth sy c = .error err) : err = ErrKind.buildError := by
  unfold applySynth at h
  split at h
  · split at h
    · exact Except.noConfusion h
    · injection h with h2
      exact h2.symm
  · exact Except.noConfusion h

theorem applyDressing_error_kind (d : DressingMode) (c : CollectionSpec)
    (e : EmissionSpec) (err : ErrKind) (h : applyDressing d c e = .error err) :
    err = ErrKind.buildError := by
  unfold applyDressing at h
  split at h
  · split at h
    · exact Except.noConfusion h
    · injection h with h2
      exact h2.symm
  · exact Except.noConfusion h

theorem applyDressing_ok_fields (d : DressingMode) (c : CollectionSpec)
    (e : EmissionSpec) (c2 : CollectionSpec) (e2 : EmissionSpec)
    (h : applyDressing d c e = .ok (c2, e2)) :
    e2.noiseRef = e.noiseRef ∧ e2.twirlRegisterType = e.twirlRegisterType := by
  unfold applyDressing at h
  split at h
  · split at h
    · injection h with h2
      obtain ⟨-, he⟩ := Prod.mk.injEq .. ▸ h2
      rw [← he]
      exact ⟨rfl, rfl⟩
    · exact Except.noConfusion h
  · injection h with h2
    obtain ⟨-, he⟩ := Prod.mk.injEq .. ▸ h2
    rw [← he]
    exact ⟨rfl, rfl⟩

theorem parseAnnot_error_kind (a : Annot) (c : CollectionSpec) (e : EmissionSpec)
    (err : ErrKind) (h : parseAnnot a c e = .error err) : err = ErrKind.buildError := by
  cases a with
  | twirl g d dec =>
    simp only [parseAnnot] at h
    unfold twirlParser at h
    split at h
    · injection h with h2
      exact h2.symm
    · cases hs : applySynth dec c with
      | error e2 =>
        simp only [hs] at h
        injection h with h2
        rw [← h2]
        exact applySynth_error_kind dec c e2 hs
      | ok c2 =>
        simp only [hs] at h
        exact applyDressing_error_kind d c2 _ err h
  | changeBasis m r d dec =>
    simp only [parseAnnot] at h
    unfold changeBasisParser at h
    split at h
    · injection h with h2
      exact h2.symm
    · cases hs : applySynth dec c with
      | error e2 =>
        simp only [hs] at h
        injection h with h2
        rw [← h2]
        exact applySynth_error_kind dec c e2 hs
      | ok c2 =>
        simp only [hs] at h
        exact applyDressing_error_kind d c2 _ err h
  | injectLocalClifford r d dec =>
    simp only [parseAnnot] at h
    unfold injectLocalCliffordParser at h
    split at h
    · injection h with h2
      exact h2.symm
    · cases hs : applySynth dec c with
      | error e2 =>
        simp only [hs] at h
        injection h with h2
        rw [← h2]
        exact applySynth_error_kind dec c e2 hs
      | ok c2 =>
        simp only [hs] at h
        exact applyDressing_error_kind d c2 _ err h
  | injectNoise r m =>
    simp only [parseAnnot] at h
    unfold injectNoiseParser at h
    split at h
    · injection h with h2
      exact h2.symm
    · exact Except.noConfusion h

theorem parseLoop_error_kind :
    ∀ (annots : List Annot) (seen : List Nat) (c : CollectionSpec) (e : EmissionSpec)
      (err : ErrKind), parseLoop annots seen c e = .error err → err = ErrKind.buildError := by
  intro annots
  induction annots with
  | nil => intro seen c e err h; exact Except.noConfusion h
  | cons a rest ih =>
    intro seen c e err h
    unfold parseLoop at h
    split at h
    · injection h with h2
      exact h2.symm
    · cases hpa : parseAnnot a c e with
      | error e2 =>
        simp only [hpa] at h
        injection h with h2
        rw [← h2]
        exact parseAnnot_error_kind a c e e2 hpa
      | ok pr =>
        obtain ⟨c1, e1⟩ := pr
        simp only [hpa] at h
        exact ih (a.tag :: seen) c1 e1 err h

theorem parseAnnot_fields_preserved (a : Annot) (c : CollectionSpec) (e : EmissionSpec)
    (c2 : CollectionSpec) (e2 : EmissionSpec)
    (hna : ∀ r m, a ≠ Annot.injectNoise r m)
    (h : parseAnnot a c e = .ok (c2, e2)) : e2.noiseRef = e.noiseRef := by
  cases a with
  | twirl g d dec =>
    simp only [parseAnnot] at h
    unfold twirlParser at h
    split at h
    · exact Except.noConfusion h
    · cases hs : applySynth dec c with
      | error e3 =>
        simp only [hs] at h
        exact Except.noConfusion h
      | ok c3 =>
        simp only [hs] at h
        exact (applyDressing_ok_fields d c3 _ c2 e2 h).1
  | changeBasis m r d dec =>
    simp only [parseAnnot] at h
    unfold changeBasisParser at h
    split at h
    · exact Except.noConfusion h
    · cases hs : applySynth dec c with
      | error e3 =>
        simp only [hs] at h
        exact Except.noConfusion h
      | ok c3 =>
        simp only [hs] at h
        exact (applyDressing_ok_fields d c3 _ c2 e2 h).1
  | injectLocalClifford r d dec =>
    simp only [parseAnnot] at h
    unfold injectLocalCliffordParser at h
    split at h
    · exact Except.noConfusion h
    · cases hs : applySynth dec c with
      | error e3 =>
        simp only [hs] at h
        exact Except.noConfusion h
      | ok c3 =>
        simp only [hs] at h
        exact (applyDressing_ok_fields d c3 _ c2 e2 h).1
  | injectNoise r m => exact absurd rfl (hna r m)

theorem parseAnnot_twirl_preserved (a : Annot) (c : CollectionSpec) (e : EmissionSpec)
    (c2 : CollectionSpec) (e2 : EmissionSpec)
    (hna : ∀ g d dec, a ≠ Annot.twirl g d dec)
    (h : parseAnnot a c e = .ok (c2, e2)) : e2.twirlRegisterType = e.twirlRegisterType := by
  cases a with
  | twirl g d dec => exact absurd rfl (hna g d dec)
  | changeBasis m r d dec =>
    simp only [parseAnnot] at h
    unfold changeBasisParser at h
    split at h
    · exact Except.noConfusion h
    · cases hs : applySynth dec c with
      | error e3 =>
        simp only [hs] at h
        exact Except.noConfusion h
      | ok c3 =>
        simp only [hs] at h
        exact (applyDressing_ok_fields d c3 _ c2 e2 h).2
  | injectLocalClifford r d dec =>
    simp only [parseAnnot] at h
    unfold injectLocalCliffordParser at h
    split at h
    · exact Except.noConfusion h
    · cases hs : applySynth dec c with
      | error e3 =>
        simp only [hs] at h
        exact Except.noConfusion h
      | ok c3 =>
        simp only [hs] at h
        exact (applyDressing_ok_fields d c3 _ c2 e2 h).2
  | injectNoise r m =>
    simp only [parseAnnot] at h
    unfold injectNoiseParser at h
    split at h
    · exact Except.noConfusion h
    · injection h with h2
      obtain ⟨-, he⟩ := Prod.mk.injEq .. ▸ h2
      rw [← he]

theorem parseAnnot_injectNoise (r m : String) (c : CollectionSpec) (e : EmissionSpec)
    (c2 : CollectionSpec) (e2 : EmissionSpec)
    (h : parseAnnot (Annot.injectNoise r m) c e = .ok (c2, e2)) :
    e.noiseRef = none ∧ e2.noiseRef = some r := by
  simp only [parseAnnot] at h
  unfold injectNoiseParser at h
  split at h
  · exact Except.noConfusion h
  · rename_i hns
    refine ⟨Option.not_isSome_iff_eq_none.mp (by simpa using hns), ?_⟩
    injection h with h2
    obtain ⟨-, he⟩ := Prod.mk.injEq .. ▸ h2
    rw [← he]

theorem parseLoop_noise_some :
    ∀ (annots : List Annot) (seen : List Nat) (c : CollectionSpec) (e : EmissionSpec)
      (c2 : CollectionSpec) (e2 : EmissionSpec) (x : String),
      e.noiseRef = some x → parseLoop annots seen c e = .ok (c2, e2) →
      e2.noiseRef = some x := by
  intro annots
  induction annots with
  | nil =>
    intro seen c e c2 e2 x hx h
    injection h with h2
    obtain ⟨-, he⟩ := Prod.mk.injEq .. ▸ h2
    rw [← he]
    exact hx
  | cons a rest ih =>
    intro seen c e c2 e2 x hx h
    unfold parseLoop at h
    split at h
    · exact Except.noConfusion h
    · cases hpa : parseAnnot a c e with
      | error e3 =>
        simp only [hpa] at h
        exact Except.noConfusion h
      | ok pr =>
        obtain ⟨c1, e1⟩ := pr
        simp only [hpa] at h
        cases a with
        | injectNoise r m =>
          have := (parseAnnot_injectNoise r m c e c1 e1 hpa).1
          rw [hx] at this
          exact Option.noConfusion this
        | twirl g d dec =>
          have hpres := parseAnnot_fields_preserved _ c e c1 e1 (by intro r m hh; exact Annot.noConfusion hh) hpa
          exact ih _ c1 e1 c2 e2 x (hpres.trans hx) h
        | changeBasis mm r d dec =>
          have hpres := parseAnnot_fields_preserved _ c e c1 e1 (by intro r2 m2 hh; exact Annot.noConfusion hh) hpa
          exact ih _ c1 e1 c2 e2 x (hpres.trans hx) h
        | injectLocalClifford r d dec =>
          have hpres := parseAnnot_fields_preserved _ c e c1 e1 (by intro r2 m2 hh; exact Annot.noConfusion hh) hpa
          exact ih _ c1 e1 c2 e2 x (hpres.trans hx) h

theorem parseLoop_noise_blocked :
    ∀ (annots : List Annot) (seen : List Nat) (c : CollectionSpec) (e : EmissionSpec)
      (out : CollectionSpec × EmissionSpec),
      (∃ r m, Annot.injectNoise r m ∈ annots) → e.noiseRef.isSome = true →
      parseLoop annots seen c e ≠ .ok out := by
  intro annots
  induction annots with
  | nil =>
    intro seen c e out hmem _ _
    obtain ⟨r, m, hr⟩ := hmem
    exact absurd hr (by simp)
  | cons a rest ih =>
    intro seen c e out hmem hs h
    unfold parseLoop at h
    split at h
    · exact Except.noConfusion h
    · cases hpa : parseAnnot a c e with
      | error e3 =>
        simp only [hpa] at h
        exact Except.noConfusion h
      | ok pr =>
        obtain ⟨c1, e1⟩ := pr
        simp only [hpa] at h
        cases a with
        | injectNoise r m =>
          simp only [parseAnnot] at hpa
          unfold injectNoiseParser at hpa
          rw [if_pos hs] at hpa
          exact Except.noConfusion hpa
        | twirl g d dec =>
          have hpres := parseAnnot_fields_preserved _ c e c1 e1 (by intro r m hh; exact Annot.noConfusion hh) hpa
          obtain ⟨r, m, hr⟩ := hmem
          rcases List.mem_cons.mp hr with heq | hmemrest
          · exact Annot.noConfusion heq.symm
          · exact ih _ c1 e1 out ⟨r, m, hmemrest⟩ (by rw [hpres]; exact hs) h
        | changeBasis mm r2 d dec =>
          have hpres := parseAnnot_fields_preserved _ c e c1 e1 (by intro r3 m3 hh; exact Annot.noConfusion hh) hpa
          obtain ⟨r, m, hr⟩ := hmem
          rcases List.mem_cons.mp hr with heq | hmemrest
          · exact Annot.noConfusion heq.symm
          · exact ih _ c1 e1 out ⟨r, m, hmemrest⟩ (by rw [hpres]; exact hs) h
        | injectLocalClifford r2 d dec =>
          have hpres := parseAnnot_fields_preserved _ c e c1 e1 (by intro r3 m3 hh; exact Annot.noConfusion hh) hpa
          obtain ⟨r, m, hr⟩ := hmem
          rcases List.mem_cons.mp hr with heq | hmemrest
          · exact Annot.noConfusion heq.symm
          · exact ih _ c1 e1 out ⟨r, m, hmemrest⟩ (by rw [hpres]; exact hs) h

theorem parseLoop_noise_mem :
    ∀ (annots : List Annot) (seen : List Nat) (c : CollectionSpec) (e : EmissionSpec)
      (c2 : CollectionSpec) (e2 : EmissionSpec) (ref mref : String),
      Annot.injectNoise ref mref ∈ annots → e.noiseRef = none →
      parseLoop annots seen c e = .ok (c2, e2) → e2.noiseRef = some ref := by
  intro annots
  induction annots with
  | nil =>
    intro seen c e c2 e2 ref mref hmem _ _
    exact absurd hmem (by simp)
  | cons a rest ih =>
    intro seen c e c2 e2 ref mref hmem hn h
    unfold parseLoop at h
    split at h
    · exact Except.noConfusion h
    · cases hpa : parseAnnot a c e with
      | error e3 =>
        simp only [hpa] at h
        exact Except.noConfusion h
      | ok pr =>
        obtain ⟨c1, e1⟩ := pr
        simp only [hpa] at h
        rcases List.mem_cons.mp hmem with heq | hmemrest
        · subst heq
          have hinj := parseAnnot_injectNoise ref mref c e c1 e1 hpa
          exact parseLoop_noise_some rest _ c1 e1 c2 e2 ref hinj.2 h
        · cases a with
          | injectNoise r m =>
            have hinj := parseAnnot_injectNoise r m c e c1 e1 hpa
            exact absurd h (parseLoop_noise_blocked rest _ c1 e1 (c2, e2)
              ⟨ref, mref, hmemrest⟩ (by rw [hinj.2]; rfl))
          | twirl g d dec =>
            have hpres := parseAnnot_fields_preserved _ c e c1 e1 (by intro r m hh; exact Annot.noConfusion hh) hpa
            exact ih _ c1 e1 c2 e2 ref mref hmemrest (hpres.trans hn) h
          | changeBasis mm r d dec =>
            have hpres := parseAnnot_fields_preserved _ c e c1 e1 (by intro r2 m2 hh; exact Annot.noConfusion hh) hpa
            exact ih _ c1 e1 c2 e2 ref mref hmemrest (hpres.trans hn) h
          | injectLocalClifford r d dec =>
            have hpres := parseAnnot_fields_preserved _ c e c1 e1 (by intro r2 m2 hh; exact Annot.noConfusion hh) hpa
            exact ih _ c1 e1 c2 e2 ref mref hmemrest (hpres.trans hn) h

theorem parseLoop_twirl_none :
    ∀ (annots : List Annot) (seen : List Nat) (c : CollectionSpec) (e : EmissionSpec)
      (c2 : CollectionSpec) (e2 : EmissionSpec),
      (∀ g d dec, Annot.twirl g d dec ∉ annots) →
      parseLoop annots seen c e = .ok (c2, e2) →
      e2.twirlRegisterType = e.twirlRegisterType := by
  intro annots
  induction annots with
  | nil =>
    intro seen c e c2 e2 _ h
    injection h with h2
    obtain ⟨-, he⟩ := Prod.mk.injEq .. ▸ h2
    rw [← he]
  | cons a rest ih =>
    intro seen c e c2 e2 hnt h
    unfold parseLoop at h
    split at h
    · exact Except.noConfusion h
    · cases hpa : parseAnnot a c e with
      | error e3 =>
        simp only [hpa] at h
        exact Except.noConfusion h
      | ok pr =>
        obtain ⟨c1, e1⟩ := pr
        simp only [hpa] at h
        have hna : ∀ g d dec, a ≠ Annot.twirl g d dec := by
          intro g d dec heq
          exact hnt g d dec (by rw [← heq]; simp)
        have hpres := parseAnnot_twirl_preserved a c e c1 e1 hna hpa
        have hrest : ∀ g d dec, Annot.twirl g d dec ∉ rest := by
          intro g d dec hmem
          exact hnt g d dec (by simp [hmem])
        exact (ih _ c1 e1 c2 e2 hrest h).trans hpres

/-- C9 (amended): a box whose annotation set contains an `InjectNoise`
directive with a non-empty ref and no `Twirl` directive (the only directive
that establishes a twirl register kind) makes `get_builder` raise
`BuildError`. -/
theorem inject_noise_requires_twirl (annots : List Annot) (body : List BodyOp)
    (qubits : List Nat) (ref mref : String)
    (hmem : Annot.injectNoise ref mref ∈ annots) (href : ref ≠ "")
    (hnt : ∀ g d dec, Annot.twirl g d dec ∉ annots) :
    getBuilder annots body qubits = .error ErrKind.buildError := by
  unfold getBuilder
  have hne : annots.isEmpty = false := by
    cases annots with
    | nil => exact absurd hmem (by simp)
    | cons _ _ => rfl
  rw [if_neg (by simp [hne])]
  cases hpl : parseLoop annots [] initCollectionSpec (initEmissionSpec qubits) with
  | error err =>
    simp only [hpl]
    rw [parseLoop_error_kind annots [] _ _ err hpl]
  | ok pr =>
    obtain ⟨c, e⟩ := pr
    simp only [hpl]
    have hnoise : e.noiseRef = some ref :=
      parseLoop_noise_mem annots [] _ _ c e ref mref hmem rfl hpl
    have htw : e.twirlRegisterType = none :=
      parseLoop_twirl_none annots [] _ _ c e hnt hpl
    have hcond : (noiseRefTruthy e && e.twirlRegisterType.isNone) = true := by
      simp [noiseRefTruthy, hnoise, htw, href]
    rw [if_pos hcond]

/-- Witness for C9 (amended) at a single `InjectNoise("noise")` annotation. -/
theorem inject_noise_requires_twirl_witness :
    (Annot.injectNoise "noise" "" ∈ [Annot.injectNoise "noise" ""]) ∧
    ("noise" ≠ "") ∧
    (∀ g d dec, Annot.twirl g d dec ∉ [Annot.injectNoise "noise" ""]) ∧
    getBuilder [Annot.injectNoise "noise" ""] [] [] = .error ErrKind.buildError :=
  ⟨by simp, by decide, by intro g d dec hh; simp at hh,
    inject_noise_requires_twirl [Annot.injectNoise "noise" ""] [] [] "noise" ""
      (by simp) (by decide) (by intro g d dec hh; simp at hh)⟩

/-- C9 fails as stated for the degenerate empty ref: the guard tests Python
truthiness of `emission.noise_ref`, so an `InjectNoise` annotation with
`ref = ""` and no twirl annotation builds without error. -/
theorem inject_noise_empty_ref_counterexample :
    getBuilder [Annot.injectNoise "" ""] [] [] =
      .ok (.rightBox initCollectionSpec
        { initEmissionSpec [] with noiseRef := some "", noiseModifierRef := some "" }) ∧
    (getBuilder [Annot.injectNoise "" ""] [] []).toOption.isSome = true :=
  ⟨rfl, rfl⟩

end Samplomatic
